import Mathlib

set_option maxHeartbeats 1000000
set_option maxRecDepth 4096

/-!
Verification development for the git-lfs-test scenario orchestration and
checksum verification core.  Each definition is a shallow embedding of the
corresponding Go function; machine integers are modelled as `Nat`/`Int`
with explicit bounds where overflow matters, and fallible code returns
`Option`/`Except`.
-/

namespace GitLfsTest

/-! ## Data model: test runs (pkg/database) -/

/-- A test-run record as stored in the `test_runs` table (`pkg/database`).
Timestamps are abstract `Nat` instants; `completedAt = none` models SQL NULL. -/
structure TestRun where
  status : String
  notes : String
  completedAt : Option Nat
  pid : Int
deriving Repr, DecidableEq

/-! ## Integrity verifier (lfsverify, src/unnamed/part_008) -/

/-- `VerifyRepositorySizes` from the LFS verification package, reduced to its
decision on the two measured sizes (`dirSize(.git/objects)` and the total size
returned by `countLFSObjects`): it returns an error message exactly when LFS
objects are present (`lfsObjectsSize > 0`) and the git objects are strictly
larger. -/
def VerifyRepositorySizes (gitObjectsSize lfsObjectsSize : Int) : Option String :=
  if lfsObjectsSize > 0 ∧ gitObjectsSize > lfsObjectsSize then
    some "git objects larger than LFS objects - LFS may not be working correctly"
  else
    none

/-- Outcome of one external command invocation (pkg/timing `Run`):
exit code, captured stdout, and whether a spawn error occurred
(`result.Error != nil`). -/
structure ExecResult where
  exitCode : Int
  stdout : String
  hasSpawnError : Bool
deriving Repr, DecidableEq

/-- Line scanning done by `getLFSTrackedFiles`: split stdout into lines,
trim whitespace, keep the non-empty lines. -/
def parseTrackedLines (s : String) : List String :=
  ((s.splitOn "\n").map (fun line => line.trim)).filter (fun line => line ≠ "")

/-- `getLFSTrackedFiles` (src/unnamed/part_008): fails when the spawn failed or
the exit code is non-zero; otherwise returns the scanned, trimmed, non-empty
lines of stdout. -/
def getLFSTrackedFiles (r : ExecResult) : Except String (List String) :=
  if r.hasSpawnError ∨ r.exitCode ≠ 0 then
    Except.error "git lfs ls-files failed"
  else
    Except.ok (parseTrackedLines r.stdout)

/-- `VerifyNotLFSPointers` (src/unnamed/part_008), parameterized by the outcome
of the `git lfs ls-files` query: a failed query is treated as success
(`return nil`); otherwise any input file still in the tracked list is an
error.  `none` models the Go `nil` (success) return. -/
def VerifyNotLFSPointers (query : Except String (List String))
    (files : List String) : Option String :=
  match query with
  | Except.error _ => none
  | Except.ok trackedFiles =>
    let stillTracked := files.filter (fun f => trackedFiles.contains f)
    if stillTracked ≠ [] then
      some "expected files to NOT be tracked by LFS, but some still are"
    else
      none

/-! ## Dispatch layer (cmd/lfst-checksum main, Config.IsRemoteHost) -/

/-- The configuration fields consulted by the dispatch decision
(pkg/config `Config`). -/
structure Config where
  remoteHost : String
  autoRemote : Bool
deriving Repr, DecidableEq

/-- `Config.IsRemoteHost` (pkg/config): false when auto-detection is off or the
hostname cannot be obtained (`hostname = none`); otherwise true iff the current
hostname differs from the configured remote host. -/
def IsRemoteHost (cfg : Config) (hostname : Option String) : Bool :=
  if cfg.autoRemote = false then
    false
  else
    match hostname with
    | none => false
    | some h => h != cfg.remoteHost

/-- The local-vs-remote decision: whether to use remote mode, and the target
host ("" in local mode, matching the Go zero value). -/
structure DispatchDecision where
  useRemote : Bool
  remoteHost : String
deriving Repr, DecidableEq

/-- The dispatch decision of cmd/lfst-checksum `main` (the
`useRemote`/`remoteHost` assignment): force-local wins, then an explicit
force-remote host, then configured auto-detection (only consulted when the
database is not skipped), else local. -/
def decideDispatch (forceLocal : Bool) (forceRemote : String)
    (skipDatabase : Bool) (cfg : Config) (hostname : Option String) :
    DispatchDecision :=
  if forceLocal then
    { useRemote := false, remoteHost := "" }
  else if forceRemote ≠ "" then
    { useRemote := true, remoteHost := forceRemote }
  else if skipDatabase = false ∧ IsRemoteHost cfg hostname = true then
    { useRemote := true, remoteHost := cfg.remoteHost }
  else
    { useRemote := false, remoteHost := "" }

/-! ## Phase 6 (pkg/config `Runner.Step6_FirstClientPull`) -/

/-- Observable behaviour of `Runner.Step6_FirstClientPull`: whether the
pull/synchronization was actually performed (it never is — the pull call is
commented out for the remote branch and absent for the local branch), and the
messages printed, in order.  Every print in the function is guarded by the
Debug flag.  `checksumCount` abstracts the number of checksums computed for
the step-6 snapshot. -/
def Step6_FirstClientPull (debug : Bool) (protocol serverURL : String)
    (checksumCount : Nat) : Bool × List String :=
  let syncMsgs :=
    if protocol ≠ "local" ∧ serverURL ≠ "" then
      if debug then
        ["Pulling changes from remote...",
         "  (Skipping pull - remote not yet configured)"]
      else []
    else if protocol = "local" then
      if debug then
        ["Pulling changes from local repo...",
         "  (Skipping local pull - requires bare repo setup)"]
      else []
    else []
  let checksumMsgs :=
    (if debug then ["Computing checksums in first clone..."] else []) ++
    (if debug then
      ["Stored " ++ toString checksumCount ++ " checksums for step 6",
       "  Note: Checksum comparison with step 5 requires working pull"]
     else [])
  (false, syncMsgs ++ checksumMsgs)

/-! ## Scenario state machine (pkg/config `Runner.Execute`) -/

/-- The note appended to the run record when a step fails
(`" | Failed at step %d: %v"`). -/
def failNote (stepNum : Nat) (e : String) : String :=
  " | Failed at step " ++ toString stepNum ++ ": " ++ e

/-- The warning emitted for a failed cleanup during failure handling: it is
printed only when Debug is set, and never replaces the step error. -/
def cleanupWarnings (debug : Bool) (cleanupErr : Option String) : List String :=
  match cleanupErr with
  | some ce => if debug then ["Warning: cleanup failed: " ++ ce] else []
  | none => []

/-- Result of `Runner.Execute`: final run record, the error returned to the
caller (`none` = nil), how many steps were invoked, whether cleanup was
attempted, and the warnings printed during failure handling. -/
structure ExecOutcome where
  run : TestRun
  err : Option String
  executed : Nat
  cleanupAttempted : Bool
  warnings : List String
deriving Repr, DecidableEq

/-- The step loop of `Runner.Execute` (pkg/config): each step's outcome is
`none` (success) or `some e` (the step returned error `e`).  On the first
failure the run is marked failed with a diagnostic note, cleanup is attempted
(its error only ever producing a debug warning), and
`"step %d failed: %w"` is returned; no later step runs.  When every step
succeeds the run is marked completed. -/
def executeSteps (debug : Bool) (cleanupErr : Option String) :
    TestRun → Nat → List (Option String) → ExecOutcome
  | run, _, [] =>
    { run := { run with
                 status := "completed"
                 notes := run.notes ++ " | All steps completed successfully" },
      err := none, executed := 0, cleanupAttempted := false, warnings := [] }
  | run, stepNum, none :: rest =>
    let o := executeSteps debug cleanupErr run (stepNum + 1) rest
    { o with executed := o.executed + 1 }
  | run, stepNum, some e :: _ =>
    { run := { run with status := "failed", notes := run.notes ++ failNote stepNum e },
      err := some ("step " ++ toString stepNum ++ " failed: " ++ e),
      executed := 1,
      cleanupAttempted := true,
      warnings := cleanupWarnings debug cleanupErr }

/-- `Runner.Execute` after the run record has been created with status
"running": the seven steps are numbered from 1. -/
def Execute (debug : Bool) (cleanupErr : Option String) (run : TestRun)
    (steps : List (Option String)) : ExecOutcome :=
  executeSteps debug cleanupErr { run with status := "running" } 1 steps

/-! ## Manual status update (cmd/lfst-checksum `handleUpdate`) -/

/-- The status whitelist of `handleUpdate`. -/
def validUpdateStatus (s : String) : Bool :=
  s == "running" || s == "completed" || s == "failed"

/-- `handleUpdate` (cmd/lfst-checksum): `notes`/`status` are the flag values
("" = flag absent); `none` models the `os.Exit(1)` paths (invalid status /
nothing to update).  The notes flag appends; the status flag overwrites the
status unconditionally and sets the completion timestamp only when the status
is not "running" and no completion timestamp is recorded yet. -/
def handleUpdate (run : TestRun) (notes status : String) (now : Nat) :
    Option TestRun :=
  let r1 := if notes ≠ "" then
      { run with notes := if run.notes ≠ "" then run.notes ++ " | " ++ notes else notes }
    else run
  if status ≠ "" then
    if validUpdateStatus status = false then
      none
    else
      let r2 := { r1 with status := status }
      if status ≠ "running" ∧ run.completedAt = none then
        some { r2 with completedAt := some now }
      else
        some r2
  else if notes ≠ "" then
    some r1
  else
    none

/-- `handleComplete` (cmd/lfst-checksum): after fetching the run it
unconditionally overwrites the completion timestamp and sets the status to
"completed", with no guard on the current status; the notes flag appends. -/
def handleComplete (run : TestRun) (notes : String) (now : Nat) : TestRun :=
  let r1 := { run with completedAt := some now, status := "completed" }
  if notes ≠ "" then
    { r1 with notes := if run.notes ≠ "" then run.notes ++ " | " ++ notes else notes }
  else
    r1

/-- `handleFail` (cmd/lfst-checksum): after fetching the run it
unconditionally overwrites the completion timestamp and sets the status to
"failed", with no guard on the current status; the notes flag appends. -/
def handleFail (run : TestRun) (notes : String) (now : Nat) : TestRun :=
  let r1 := { run with completedAt := some now, status := "failed" }
  if notes ≠ "" then
    { r1 with notes := if run.notes ≠ "" then run.notes ++ " | " ++ notes else notes }
  else
    r1

/-! ## Cancellation (cmd/lfst-scenario `handleCancel`) -/

/-- The record mutation performed when a run is cancelled. -/
def cancelRun (run : TestRun) (now : Nat) : TestRun :=
  { run with
      status := "cancelled"
      pid := 0
      completedAt := some now
      notes := run.notes ++ " | Cancelled by user" }

/-- Outcome of cancelling one run by identifier: the (possibly updated)
record, whether a termination signal was sent, and how many runs were
cancelled. -/
structure CancelOutcome where
  run : TestRun
  signalSent : Bool
  cancelledCount : Nat
deriving Repr, DecidableEq

/-- `handleCancel` (cmd/lfst-scenario) for a specific run id: a run that is
not running is reported and left untouched (early `return`, no signal, zero
cancelled); a running run gets a signal when a live pid is recorded, its
working directories removed, and its record marked cancelled. -/
def handleCancelById (run : TestRun) (now : Nat) : CancelOutcome :=
  if run.status ≠ "running" then
    { run := run, signalSent := false, cancelledCount := 0 }
  else
    { run := cancelRun run now, signalSent := decide (run.pid > 0),
      cancelledCount := 1 }

/-- `handleCancel` (cmd/lfst-scenario) for "all": only runs whose status is
"running" are selected and cancelled; the reported count is the size of that
selection. -/
def handleCancelAll (runs : List TestRun) (now : Nat) : List TestRun × Nat :=
  (runs.map (fun r => if r.status = "running" then cancelRun r now else r),
   (runs.filter (fun r => r.status == "running")).length)

/-! ## Fingerprint store rows and diffing (pkg/checksum `CompareChecksums`) -/

/-- A stored fingerprint row as `db.ListChecksums` returns it for one
(run, step): relative path, checksum rendered as fixed-width hex text, size. -/
structure Checksum where
  filePath : String
  crc32 : String
  sizeBytes : Int
deriving Repr, DecidableEq

/-- `checksum.Difference`: Go zero values ("" / 0) stand in for the fields not
set by the deleted/added constructions. -/
structure Difference where
  filePath : String
  oldCRC32 : String
  oldSize : Int
  newCRC32 : String
  newSize : Int
  changeType : String
deriving Repr, DecidableEq

/-- Path lookup in a snapshot, modelling the Go map built keyed by FilePath
(snapshots have unique paths, so the first match is the entry). -/
def lookupChecksum (l : List Checksum) (p : String) : Option Checksum :=
  l.find? (fun c => c.filePath == p)

/-- The old-side pass of `CompareChecksums`: a path absent from the new
snapshot is deleted; a present path with differing checksum is modified or
size-changed according to the sizes; equal checksums produce nothing. -/
def diffOld (newCS : List Checksum) (oc : Checksum) : Option Difference :=
  match lookupChecksum newCS oc.filePath with
  | none =>
    some { filePath := oc.filePath, oldCRC32 := oc.crc32, oldSize := oc.sizeBytes,
           newCRC32 := "", newSize := 0, changeType := "deleted" }
  | some nc =>
    if oc.crc32 ≠ nc.crc32 then
      some { filePath := oc.filePath, oldCRC32 := oc.crc32, oldSize := oc.sizeBytes,
             newCRC32 := nc.crc32, newSize := nc.sizeBytes,
             changeType := if oc.sizeBytes ≠ nc.sizeBytes then "size-changed" else "modified" }
    else
      none

/-- The new-side pass of `CompareChecksums`: a path absent from the old
snapshot is added. -/
def diffNew (oldCS : List Checksum) (nc : Checksum) : Option Difference :=
  if (lookupChecksum oldCS nc.filePath).isNone then
    some { filePath := nc.filePath, oldCRC32 := "", oldSize := 0,
           newCRC32 := nc.crc32, newSize := nc.sizeBytes, changeType := "added" }
  else
    none

/-- Order on differences used by the final `sort.Slice` (by path). -/
def pathLe (a b : Difference) : Prop := a.filePath ≤ b.filePath

instance : DecidableRel pathLe := fun a b =>
  inferInstanceAs (Decidable (a.filePath ≤ b.filePath))

instance : IsTotal Difference pathLe :=
  ⟨fun a b => le_total a.filePath b.filePath⟩

instance : IsTrans Difference pathLe :=
  ⟨fun _ _ _ h1 h2 => le_trans h1 h2⟩

/-- `CompareChecksums` (pkg/checksum): both passes over the two snapshots,
then a sort by path. -/
def CompareChecksums (oldCS newCS : List Checksum) : List Difference :=
  List.insertionSort pathLe
    (oldCS.filterMap (diffOld newCS) ++ newCS.filterMap (diffNew oldCS))

/-! ## JSON interchange (pkg/checksum `ExportJSON` / `ImportJSON`) -/

/-- An in-memory fingerprint as produced by the fingerprint engine
(`checksum.FileChecksum`): `crc32` is a uint32 value, `sizeBytes` an int64. -/
structure FileChecksum where
  path : String
  crc32 : Nat
  sizeBytes : Int
deriving Repr, DecidableEq

/-- The JSON value tree: numbers restricted to integers since every number in
the interchange format is an integer field. -/
inductive Json where
  | num (n : Int)
  | str (s : String)
  | arr (xs : List Json)
  | obj (fields : List (String × Json))

/-- Go `encoding/json` marshalling of `FileChecksum` (no tags, so the exported
field names are used, in declaration order). -/
def encodeFileChecksum (c : FileChecksum) : Json :=
  Json.obj [("Path", Json.str c.path), ("CRC32", Json.num (Int.ofNat c.crc32)),
            ("SizeBytes", Json.num c.sizeBytes)]

/-- `ExportJSON` (pkg/checksum): the wire object with fields `run_id`,
`step_number`, `checksums`, `computed_at`; the timestamp is modelled as the
opaque RFC3339 string Go produces. -/
def ExportJSON (runID stepNumber : Int) (checksums : List FileChecksum)
    (computedAt : String) : Json :=
  Json.obj [("run_id", Json.num runID), ("step_number", Json.num stepNumber),
            ("checksums", Json.arr (checksums.map encodeFileChecksum)),
            ("computed_at", Json.str computedAt)]

/-- Field lookup during unmarshalling (keys in the wire format match the
struct's field names exactly). -/
def jsonField (j : Json) (name : String) : Option Json :=
  match j with
  | Json.obj fields => (fields.find? (fun f => f.1 == name)).map (fun f => f.2)
  | _ => none

def int64Min : Int := -(2 ^ 63)

def int64Max : Int := 2 ^ 63 - 1

/-- Unmarshal a JSON number into an int64 field (out-of-range is an error). -/
def decodeInt64 : Json → Option Int
  | Json.num n => if int64Min ≤ n ∧ n ≤ int64Max then some n else none
  | _ => none

/-- Unmarshal a JSON number into a uint32 field (negative or too large is an
error). -/
def decodeUInt32 : Json → Option Nat
  | Json.num n => if 0 ≤ n ∧ n ≤ (2 ^ 32 - 1 : Int) then some n.toNat else none
  | _ => none

def decodeString : Json → Option String
  | Json.str s => some s
  | _ => none

/-- Unmarshalling of one `FileChecksum` object: a missing field keeps the Go
zero value; a field of the wrong type or out of range is an error. -/
def decodeFileChecksum (j : Json) : Option FileChecksum :=
  match j with
  | Json.obj _ => do
    let path ← match jsonField j "Path" with
      | none => some ""
      | some v => decodeString v
    let crc ← match jsonField j "CRC32" with
      | none => some 0
      | some v => decodeUInt32 v
    let size ← match jsonField j "SizeBytes" with
      | none => some 0
      | some v => decodeInt64 v
    some { path := path, crc32 := crc, sizeBytes := size }
  | _ => none

/-- Unmarshalling of the `checksums` array: each element is decoded in order
and any element error fails the whole array. -/
def decodeChecksumList : List Json → Option (List FileChecksum)
  | [] => some []
  | j :: rest => do
    let c ← decodeFileChecksum j
    let cs ← decodeChecksumList rest
    some (c :: cs)

/-- `checksum.ChecksumExport` after unmarshalling. -/
structure ChecksumExport where
  runID : Int
  stepNumber : Int
  checksums : List FileChecksum
  computedAt : String
deriving Repr, DecidableEq

/-- Unmarshalling of the wire object into `ChecksumExport`. -/
def decodeChecksumExport (j : Json) : Option ChecksumExport :=
  match j with
  | Json.obj _ => do
    let runID ← match jsonField j "run_id" with
      | none => some 0
      | some v => decodeInt64 v
    let stepNumber ← match jsonField j "step_number" with
      | none => some 0
      | some v => decodeInt64 v
    let checksums ← match jsonField j "checksums" with
      | none => some []
      | some (Json.arr xs) => decodeChecksumList xs
      | some _ => none
    let computedAt ← match jsonField j "computed_at" with
      | none => some ""
      | some v => decodeString v
    some { runID := runID, stepNumber := stepNumber, checksums := checksums,
           computedAt := computedAt }
  | _ => none

/-- A full row of the `checksums` table (`database.Checksum`). -/
structure DBChecksum where
  runID : Int
  stepNumber : Int
  filePath : String
  crc32 : String
  sizeBytes : Int
  computedAt : String
deriving Repr, DecidableEq

/-- `fmt.Sprintf("%08x", n)` for a uint32 value: lowercase hex, left-padded
with zeros to width 8. -/
def hex8 (n : Nat) : String :=
  let ds := Nat.toDigits 16 n
  String.mk (List.replicate (8 - ds.length) '0' ++ ds)

/-- `StoreChecksums` (pkg/checksum): the rows written for one snapshot, in
input order, with the checksum rendered as fixed-width hex. -/
def StoreChecksums (runID stepNumber : Int) (checksums : List FileChecksum)
    (now : String) : List DBChecksum :=
  checksums.map (fun cs =>
    { runID := runID, stepNumber := stepNumber, filePath := cs.path,
      crc32 := hex8 cs.crc32, sizeBytes := cs.sizeBytes, computedAt := now })

/-- `ImportJSON` (pkg/checksum): unmarshal the wire object, then build the
rows written to the fresh store, in wire order. -/
def ImportJSON (data : Json) : Option (List DBChecksum) :=
  (decodeChecksumExport data).map (fun e =>
    e.checksums.map (fun cs =>
      { runID := e.runID, stepNumber := e.stepNumber, filePath := cs.path,
        crc32 := hex8 cs.crc32, sizeBytes := cs.sizeBytes,
        computedAt := e.computedAt }))

/-- Projection of a stored row to the fields `CompareChecksums` consults. -/
def DBChecksum.toChecksum (r : DBChecksum) : Checksum :=
  { filePath := r.filePath, crc32 := r.crc32, sizeBytes := r.sizeBytes }

/-! ## Checksum engine (pkg/checksum `ComputeFile`, Go `hash/crc32` IEEE)

`ComputeFile` streams the file content through `crc32.NewIEEE()`.  Go's IEEE
digest starts at 0 and its update is `^simpleUpdate(^crc, tab, p)` over the
table built from the bit-reflected polynomial `0xEDB88320`, so the checksum of
a byte sequence is `0xFFFFFFFF ^ fold` starting from `0xFFFFFFFF`.  Bytes are
`Nat`s below 256; every intermediate value stays below `2^32` without explicit
masking because xor never exceeds its arguments' bit width. -/

/-- Go `crc32.IEEE` in the bit-reflected form used by `simpleMakeTable`. -/
def IEEEPoly : Nat := 0xEDB88320

/-- The POSIX `cksum` generator polynomial in its normal (unreflected) form. -/
def cksumPoly : Nat := 0x04C11DB7

/-- One division step of the reflected CRC: shift right, conditionally xor the
polynomial (the loop body of `simpleMakeTable`). -/
def crcStep (c : Nat) : Nat :=
  if c % 2 = 1 then (c / 2) ^^^ IEEEPoly else c / 2

/-- Iterated division steps. -/
def crcSteps : Nat → Nat → Nat
  | 0, c => c
  | n + 1, c => crcSteps n (crcStep c)

/-- `simpleMakeTable` entry: eight division steps on the index. -/
def crcTable (i : Nat) : Nat := crcSteps 8 i

/-- The byte loop of Go's `simpleUpdate`:
`crc = tab[byte(crc)^b] ^ (crc >> 8)`. -/
def crcUpdateByte (crc b : Nat) : Nat :=
  crcTable ((crc ^^^ b) % 256) ^^^ crc / 256

/-- The checksum `ComputeFile` records for a file with the given content
bytes: Go's `crc32.NewIEEE()` digest (`Sum32` after writing the content). -/
def crc32IEEE (data : List Nat) : Nat :=
  0xFFFFFFFF ^^^ data.foldl crcUpdateByte 0xFFFFFFFF

/-- Reference bit-at-a-time CRC: feed the `n` low bits of `b`, least
significant first, through the division step. -/
def crcFeedBits : Nat → Nat → Nat → Nat
  | 0, c, _ => c
  | n + 1, c, b => crcFeedBits n (crcStep (c ^^^ b % 2)) (b / 2)

/-- The mathematical reflected CRC-32 with polynomial `0xEDB88320`, init and
final xor `0xFFFFFFFF`, processing each byte bit by bit. -/
def crcBitwise (data : List Nat) : Nat :=
  0xFFFFFFFF ^^^ data.foldl (fun c b => crcFeedBits 8 c b) 0xFFFFFFFF

/-- Bit reversal of the `w` low bits of `n`. -/
def bitrev (w n : Nat) : Nat :=
  (List.range w).foldl (fun acc i => acc * 2 + n / 2 ^ i % 2) 0

/-- One MSB-first division step of the unreflected CRC used by `cksum`:
shift left, xor the polynomial when the outgoing high bit xor the incoming
data bit is set. -/
def cksumStepBit (c bit : Nat) : Nat :=
  let msb := c / 2 ^ 31 % 2
  let c2 := c * 2 % 2 ^ 32
  if msb ^^^ bit = 1 then c2 ^^^ cksumPoly else c2

/-- Feed one byte into the `cksum` CRC, most significant bit first. -/
def cksumFeedByte (c b : Nat) : Nat :=
  (List.range 8).foldl (fun acc i => cksumStepBit acc (b / 2 ^ (7 - i) % 2)) c

/-- The length suffix `cksum` appends: the length's bytes, least significant
first, while the remaining length is non-zero (no byte for length 0).  The
fuel of 16 bytes covers every length below `2^128`. -/
def lengthBytesAux : Nat → Nat → List Nat
  | 0, _ => []
  | fuel + 1, n => if n = 0 then [] else n % 256 :: lengthBytesAux fuel (n / 256)

def lengthBytes (n : Nat) : List Nat := lengthBytesAux 16 n

/-- The POSIX `cksum` checksum of a byte sequence: CRC over the data then the
length bytes, starting from 0, complemented at the end. -/
def cksumCRC (data : List Nat) : Nat :=
  ((data ++ lengthBytes data.length).foldl cksumFeedByte 0) ^^^ 0xFFFFFFFF

/-! ## Theorems -/

/-- C9 counterexample: with 100 bytes of git objects and an empty LFS object
store, `VerifyRepositorySizes` reports success, although the git metadata
store's total size exceeds the (empty) LFS object store's total size — the
claimed "error exactly when git exceeds LFS, including when the LFS store is
empty" fails at this input. -/
theorem VerifyRepositorySizes_empty_lfs_no_error :
    VerifyRepositorySizes 100 0 = none ∧ (0 : Int) < 100 := by
  constructor
  · decide
  · decide

/-- C9 (amended): `VerifyRepositorySizes` returns an error exactly when the
LFS object store is non-empty and the git objects' total size strictly
exceeds the LFS objects' total size; an empty LFS object store never produces
an error, even when git objects are present. -/
theorem VerifyRepositorySizes_error_iff (g l : Int) :
    (VerifyRepositorySizes g l).isSome = true ↔ 0 < l ∧ l < g := by
  unfold VerifyRepositorySizes
  by_cases h : l > 0 ∧ g > l
  · rw [if_pos h]
    simpa using ⟨h.1, h.2⟩
  · rw [if_neg h]
    simp only [Option.isSome_none, Bool.false_eq_true, false_iff]
    exact fun hc => h ⟨hc.1, hc.2⟩

/-- C10: whenever the `git lfs ls-files` query fails — spawn error or
non-zero exit — `VerifyNotLFSPointers` returns success for every input file
list. -/
theorem VerifyNotLFSPointers_query_failure (r : ExecResult)
    (files : List String) (h : r.hasSpawnError = true ∨ r.exitCode ≠ 0) :
    VerifyNotLFSPointers (getLFSTrackedFiles r) files = none := by
  unfold getLFSTrackedFiles
  rw [if_pos h]
  rfl

/-- Witness for C10 at a concrete failed query (exit code 1). -/
theorem VerifyNotLFSPointers_query_failure_witness :
    VerifyNotLFSPointers
      (getLFSTrackedFiles { exitCode := 1, stdout := "a.pdf", hasSpawnError := false })
      ["a.pdf", "b.mov"] = none :=
  VerifyNotLFSPointers_query_failure
    { exitCode := 1, stdout := "a.pdf", hasSpawnError := false }
    ["a.pdf", "b.mov"] (Or.inr (by decide))

/-- C7: with the database enabled and the hostname obtainable, the dispatch
decision follows exactly the precedence force-local, then explicit
force-remote host, then auto-detection (enabled and hostname differing from
the configured remote host), else local. -/
theorem decideDispatch_precedence (forceLocal : Bool) (forceRemote : String)
    (cfg : Config) (h : String) :
    decideDispatch forceLocal forceRemote false cfg (some h) =
      if forceLocal then { useRemote := false, remoteHost := "" }
      else if forceRemote ≠ "" then { useRemote := true, remoteHost := forceRemote }
      else if cfg.autoRemote = true ∧ h ≠ cfg.remoteHost then
        { useRemote := true, remoteHost := cfg.remoteHost }
      else { useRemote := false, remoteHost := "" } := by
  cases hfl : forceLocal with
  | true => simp [decideDispatch]
  | false =>
    by_cases hfr : forceRemote = ""
    · cases har : cfg.autoRemote with
      | false => simp [decideDispatch, IsRemoteHost, hfr, har]
      | true =>
        by_cases hh : h = cfg.remoteHost
        · simp [decideDispatch, IsRemoteHost, hfr, har, hh]
        · simp [decideDispatch, IsRemoteHost, hfr, har, hh]
    · simp [decideDispatch, hfr]

/-- C8 counterexample: with the debug option off, phase 6 does not perform
the synchronization and prints nothing at all, so the skipped synchronization
is not logged — the logging only happens under the debug option. -/
theorem Step6_silent_skip_without_debug :
    Step6_FirstClientPull false "ssh" "https://example.com" 2 = (false, []) := by
  decide

/-- C8 (amended): phase 6 never performs the synchronization; with debug off
nothing at all is logged; with debug on, a skip message is logged in the
remote-configured and local-protocol configurations. -/
theorem Step6_skip_logged_only_in_debug (debug : Bool)
    (protocol serverURL : String) (n : Nat) :
    (Step6_FirstClientPull debug protocol serverURL n).1 = false ∧
    (Step6_FirstClientPull false protocol serverURL n).2 = [] ∧
    (protocol ≠ "local" → serverURL ≠ "" →
      "  (Skipping pull - remote not yet configured)" ∈
        (Step6_FirstClientPull true protocol serverURL n).2) ∧
    (protocol = "local" →
      "  (Skipping local pull - requires bare repo setup)" ∈
        (Step6_FirstClientPull true protocol serverURL n).2) := by
  refine ⟨rfl, ?_, ?_, ?_⟩
  · simp [Step6_FirstClientPull]
  · intro h1 h2
    simp [Step6_FirstClientPull, h1, h2]
  · intro h1
    simp [Step6_FirstClientPull, h1]

/-- Witness for the amended C8 at the local-protocol configuration. -/
theorem Step6_skip_logged_only_in_debug_witness :
    "  (Skipping local pull - requires bare repo setup)" ∈
      (Step6_FirstClientPull true "local" "" 2).2 :=
  (Step6_skip_logged_only_in_debug true "local" "" 2).2.2.2 rfl

/-- C5: cancelling a run that is not running is a reported no-op (record
unchanged, no signal, zero cancelled); a second cancellation of the same run
cancels zero runs; and a second cancel-all affects zero runs. -/
theorem handleCancel_idempotent :
    (∀ (run : TestRun) (now : Nat), run.status ≠ "running" →
      handleCancelById run now =
        { run := run, signalSent := false, cancelledCount := 0 }) ∧
    (∀ (run : TestRun) (now now2 : Nat),
      (handleCancelById (handleCancelById run now).run now2).cancelledCount = 0) ∧
    (∀ (runs : List TestRun) (now now2 : Nat),
      (handleCancelAll (handleCancelAll runs now).1 now2).2 = 0) := by
  refine ⟨?_, ?_, ?_⟩
  · intro run now h
    unfold handleCancelById
    rw [if_pos h]
  · intro run now now2
    by_cases h : run.status = "running"
    · have h1 : handleCancelById run now =
          { run := cancelRun run now, signalSent := decide (run.pid > 0),
            cancelledCount := 1 } := by
        unfold handleCancelById
        rw [if_neg (by simp [h])]
      rw [h1]
      unfold handleCancelById
      rw [if_pos (by simp [cancelRun])]
    · have h1 : handleCancelById run now =
          { run := run, signalSent := false, cancelledCount := 0 } := by
        unfold handleCancelById
        rw [if_pos h]
      rw [h1]
      unfold handleCancelById
      rw [if_pos h]
  · intro runs now now2
    unfold handleCancelAll
    simp only [List.length_eq_zero, List.filter_eq_nil_iff]
    intro a ha
    rcases List.mem_map.mp ha with ⟨r, _, hr⟩
    by_cases h : r.status = "running"
    · rw [if_pos h] at hr
      subst hr
      simp [cancelRun]
    · rw [if_neg h] at hr
      subst hr
      simpa using h

/-- Witness for C5 at a concrete already-completed run. -/
theorem handleCancel_idempotent_witness :
    handleCancelById { status := "completed", notes := "", completedAt := some 3, pid := 42 } 9 =
      { run := { status := "completed", notes := "", completedAt := some 3, pid := 42 },
        signalSent := false, cancelledCount := 0 } :=
  handleCancel_idempotent.1
    { status := "completed", notes := "", completedAt := some 3, pid := 42 } 9 (by decide)

/-- C4 counterexample: the update operation transitions a completed
(terminal) run back to the running status, so a terminal state is not
preserved by every operation of the system. -/
theorem handleUpdate_leaves_terminal_state :
    handleUpdate { status := "completed", notes := "x", completedAt := some 5, pid := 0 }
        "" "running" 9 =
      some { status := "running", notes := "x", completedAt := some 5, pid := 0 } := by
  decide

/-- C4 (amended): the scenario state machine transitions a run's status only
from running to completed or failed, and it never sets the completion
timestamp; cancellation cancels only running runs — marking them cancelled
and setting the completion timestamp — and leaves non-running runs
untouched; the update subcommand never changes an already-set completion
timestamp.  But the manual run-record subcommands impose no terminal-state
protection: update accepts any whitelisted status regardless of the current
one (a completed run can be moved back to running), and complete/fail
unconditionally re-transition even terminal runs, overwriting an already-set
completion timestamp. -/
theorem run_status_transitions :
    (∀ (debug : Bool) (ce : Option String) (run : TestRun) (n : Nat)
        (steps : List (Option String)),
      ((executeSteps debug ce run n steps).run.status = "completed" ∨
        (executeSteps debug ce run n steps).run.status = "failed") ∧
      (executeSteps debug ce run n steps).run.completedAt = run.completedAt) ∧
    (∀ (run : TestRun) (now : Nat), run.status ≠ "running" →
      (handleCancelById run now).run = run) ∧
    (∀ (run : TestRun) (now : Nat), run.status = "running" →
      (handleCancelById run now).run.status = "cancelled" ∧
      (handleCancelById run now).run.completedAt = some now) ∧
    (∀ (run : TestRun) (notes status : String) (now : Nat) (run2 : TestRun),
      handleUpdate run notes status now = some run2 →
      ∀ t, run.completedAt = some t → run2.completedAt = some t) ∧
    (∀ (run : TestRun) (notes : String) (now : Nat),
      (handleComplete run notes now).status = "completed" ∧
      (handleComplete run notes now).completedAt = some now) ∧
    (∀ (run : TestRun) (notes : String) (now : Nat),
      (handleFail run notes now).status = "failed" ∧
      (handleFail run notes now).completedAt = some now) ∧
    (∃ (run run2 : TestRun) (now : Nat), run.status = "completed" ∧
      handleUpdate run "" "running" now = some run2 ∧ run2.status = "running") := by
  refine ⟨?_, ?_, ?_, ?_, ?_, ?_, ?_⟩
  · intro debug ce run n steps
    induction steps generalizing run n with
    | nil => exact ⟨Or.inl rfl, rfl⟩
    | cons s rest ih =>
      cases s with
      | none => exact ih run (n + 1)
      | some e => exact ⟨Or.inr rfl, rfl⟩
  · intro run now h
    unfold handleCancelById
    rw [if_pos h]
  · intro run now h
    have h2 : handleCancelById run now =
        { run := cancelRun run now, signalSent := decide (run.pid > 0),
          cancelledCount := 1 } := by
      unfold handleCancelById
      rw [if_neg (by simp [h])]
    rw [h2]
    exact ⟨rfl, rfl⟩
  · intro run notes status now run2 hupd t ht
    unfold handleUpdate at hupd
    by_cases hs : status ≠ ""
    · rw [if_pos hs] at hupd
      by_cases hv : validUpdateStatus status = false
      · rw [if_pos hv] at hupd
        exact absurd hupd (by simp)
      · rw [if_neg hv] at hupd
        by_cases hc : status ≠ "running" ∧ run.completedAt = none
        · rw [ht] at hc
          exact absurd hc.2 (by simp)
        · rw [if_neg hc] at hupd
          have := Option.some.inj hupd
          subst this
          by_cases hn : notes ≠ ""
          · simpa [if_pos hn] using ht
          · simpa [if_neg hn] using ht
    · rw [if_neg hs] at hupd
      by_cases hn : notes ≠ ""
      · rw [if_pos hn] at hupd
        have := Option.some.inj hupd
        subst this
        simpa [if_pos hn] using ht
      · rw [if_neg hn] at hupd
        exact absurd hupd (by simp)
  · intro run notes now
    unfold handleComplete
    by_cases hn : notes ≠ ""
    · rw [if_pos hn]
      exact ⟨rfl, rfl⟩
    · rw [if_neg hn]
      exact ⟨rfl, rfl⟩
  · intro run notes now
    unfold handleFail
    by_cases hn : notes ≠ ""
    · rw [if_pos hn]
      exact ⟨rfl, rfl⟩
    · rw [if_neg hn]
      exact ⟨rfl, rfl⟩
  · exact ⟨{ status := "completed", notes := "x", completedAt := some 5, pid := 0 },
      { status := "running", notes := "x", completedAt := some 5, pid := 0 }, 9,
      rfl, by decide, rfl⟩

/-- Witness for the amended C4: cancelling a concrete running run marks it
cancelled with the completion timestamp set, and the fail subcommand applied
to a concrete completed run with a recorded timestamp overwrites that
timestamp. -/
theorem run_status_transitions_witness :
    (handleCancelById { status := "running", notes := "", completedAt := none, pid := 7 }
        9).run.status = "cancelled" ∧
    (handleFail { status := "completed", notes := "x", completedAt := some 5, pid := 0 }
        "" 9).completedAt = some 9 := by
  constructor
  · exact (run_status_transitions.2.2.1
      { status := "running", notes := "", completedAt := none, pid := 7 } 9 rfl).1
  · exact (run_status_transitions.2.2.2.2.2.1
      { status := "completed", notes := "x", completedAt := some 5, pid := 0 } "" 9).2

/-- The step loop stops at the first failing step: the run is marked failed
with the diagnostic note, cleanup is attempted, the step error is returned,
and exactly the steps up to the failing one were invoked. -/
theorem executeSteps_first_failure (debug : Bool) (ce : Option String)
    (run : TestRun) (n : Nat) (steps : List (Option String)) (k : Nat)
    (e : String) (hk : steps.get? k = some (some e))
    (hpre : ∀ j, j < k → steps.get? j = some none) :
    executeSteps debug ce run n steps =
      { run := { run with
                   status := "failed"
                   notes := run.notes ++ failNote (n + k) e }
        err := some ("step " ++ toString (n + k) ++ " failed: " ++ e)
        executed := k + 1
        cleanupAttempted := true
        warnings := cleanupWarnings debug ce } := by
  induction steps generalizing n k with
  | nil => simp at hk
  | cons s rest ih =>
    cases k with
    | zero =>
      simp only [List.get?_cons_zero, Option.some.injEq] at hk
      subst hk
      rfl
    | succ k2 =>
      have h0 := hpre 0 (Nat.succ_pos k2)
      simp only [List.get?_cons_zero, Option.some.injEq] at h0
      subst h0
      have hk2 : rest.get? k2 = some (some e) := hk
      have hpre2 : ∀ j, j < k2 → rest.get? j = some none := by
        intro j hj
        exact hpre (j + 1) (Nat.succ_lt_succ hj)
      show (let o := executeSteps debug ce run (n + 1) rest
            { o with executed := o.executed + 1 }) = _
      rw [ih (n + 1) k2 hk2 hpre2]
      have harith : n + 1 + k2 = n + (k2 + 1) := by omega
      simp [harith]

/-- C2: if the first failing step of a run is step k+1 with error e (all
earlier steps succeeding), then `Execute` marks the run failed, appends the
note naming that step, attempts cleanup, returns the wrapped step error
(independently of whether cleanup itself failed — a cleanup failure only ever
becomes a debug warning), and invokes no later step. -/
theorem Execute_phase_failure (debug : Bool) (ce : Option String)
    (run : TestRun) (steps : List (Option String)) (k : Nat) (e : String)
    (hk : steps.get? k = some (some e))
    (hpre : ∀ j, j < k → steps.get? j = some none) :
    (Execute debug ce run steps).run.status = "failed" ∧
    (Execute debug ce run steps).run.notes = run.notes ++ failNote (k + 1) e ∧
    (Execute debug ce run steps).cleanupAttempted = true ∧
    (Execute debug ce run steps).err =
      some ("step " ++ toString (k + 1) ++ " failed: " ++ e) ∧
    (Execute debug ce run steps).executed = k + 1 ∧
    (Execute debug ce run steps).err = (Execute debug none run steps).err ∧
    (∀ cleanupError, (Execute debug (some cleanupError) run steps).warnings =
      if debug then ["Warning: cleanup failed: " ++ cleanupError] else []) := by
  have harith : 1 + k = k + 1 := by omega
  have h1 := executeSteps_first_failure debug ce
    { run with status := "running" } 1 steps k e hk hpre
  have h2 := executeSteps_first_failure debug none
    { run with status := "running" } 1 steps k e hk hpre
  refine ⟨?_, ?_, ?_, ?_, ?_, ?_, ?_⟩
  · rw [Execute, h1]
  · rw [Execute, h1]; simp [harith]
  · rw [Execute, h1]
  · rw [Execute, h1]; simp [harith]
  · rw [Execute, h1]
  · rw [Execute, h1, Execute, h2]
  · intro cleanupError
    have h3 := executeSteps_first_failure debug (some cleanupError)
      { run with status := "running" } 1 steps k e hk hpre
    rw [Execute, h3]
    rfl

/-- Witness for C2: a three-step run whose second step fails with "boom". -/
theorem Execute_phase_failure_witness :
    (Execute false none { status := "created", notes := "r", completedAt := none, pid := 1 }
        [none, some "boom", none]).err =
      some ("step " ++ toString (1 + 1) ++ " failed: " ++ "boom") :=
  (Execute_phase_failure false none
    { status := "created", notes := "r", completedAt := none, pid := 1 }
    [none, some "boom", none] 1 "boom" (by decide)
    (by
      intro j hj
      have hj0 : j = 0 := by omega
      subst hj0
      rfl)).2.2.2.1

/-- In a snapshot with unique paths, looking up a member's path finds exactly
that member. -/
theorem lookupChecksum_mem (l : List Checksum)
    (hnd : (l.map Checksum.filePath).Nodup) (c : Checksum) (hc : c ∈ l) :
    lookupChecksum l c.filePath = some c := by
  induction l with
  | nil => simp at hc
  | cons a t ih =>
    simp only [List.map_cons, List.nodup_cons] at hnd
    rcases List.mem_cons.mp hc with h | h
    · subst h
      unfold lookupChecksum
      simp
    · have hne : (a.filePath == c.filePath) = false := by
        simp only [beq_eq_false_iff_ne, ne_eq]
        intro heq
        exact hnd.1 (heq ▸ List.mem_map.mpr ⟨c, h, rfl⟩)
      unfold lookupChecksum
      rw [List.find?_cons_of_neg _ (by simp [hne])]
      exact ih hnd.2 h

/-- Lookup fails exactly for a path outside the snapshot. -/
theorem lookupChecksum_eq_none (l : List Checksum) (p : String) :
    lookupChecksum l p = none ↔ p ∉ l.map Checksum.filePath := by
  unfold lookupChecksum
  rw [List.find?_eq_none]
  constructor
  · intro h hmem
    rcases List.mem_map.mp hmem with ⟨x, hx, hfx⟩
    have hx2 := h x hx
    simp only [beq_iff_eq] at hx2
    exact hx2 hfx
  · intro h x hx
    simp only [beq_iff_eq]
    intro hfx
    exact h (List.mem_map.mpr ⟨x, hx, hfx⟩)

/-- Every difference the old-side pass produces carries the path of the old
entry that produced it. -/
theorem diffOld_filePath (newCS : List Checksum) (oc : Checksum)
    (d : Difference) (h : diffOld newCS oc = some d) :
    d.filePath = oc.filePath := by
  unfold diffOld at h
  split at h
  · simp only [Option.some.injEq] at h
    subst h
    rfl
  · split at h
    · simp only [Option.some.injEq] at h
      subst h
      rfl
    · simp at h

/-- Every difference the new-side pass produces carries the path of the new
entry that produced it, and that path misses the old snapshot. -/
theorem diffNew_props (oldCS : List Checksum) (nc : Checksum)
    (d : Difference) (h : diffNew oldCS nc = some d) :
    d.filePath = nc.filePath ∧ lookupChecksum oldCS nc.filePath = none := by
  unfold diffNew at h
  split at h
  · simp only [Option.some.injEq] at h
    subst h
    refine ⟨rfl, ?_⟩
    rwa [← Option.isNone_iff_eq_none]
  · simp at h

/-- C1: for snapshots with unique paths, `CompareChecksums` reports each path
only in the old snapshot as deleted, each path only in the new snapshot as
added, each path in both with equal checksum not at all, and each path in
both with unequal checksum as size-changed or modified according to whether
the sizes differ; the output is sorted by path. -/
theorem CompareChecksums_correct (oldCS newCS : List Checksum)
    (hOld : (oldCS.map Checksum.filePath).Nodup)
    (hNew : (newCS.map Checksum.filePath).Nodup) :
    (∀ oc ∈ oldCS, oc.filePath ∉ newCS.map Checksum.filePath →
      ({ filePath := oc.filePath, oldCRC32 := oc.crc32, oldSize := oc.sizeBytes,
         newCRC32 := "", newSize := 0, changeType := "deleted" } : Difference) ∈
        CompareChecksums oldCS newCS) ∧
    (∀ nc ∈ newCS, nc.filePath ∉ oldCS.map Checksum.filePath →
      ({ filePath := nc.filePath, oldCRC32 := "", oldSize := 0,
         newCRC32 := nc.crc32, newSize := nc.sizeBytes,
         changeType := "added" } : Difference) ∈ CompareChecksums oldCS newCS) ∧
    (∀ oc ∈ oldCS, ∀ nc ∈ newCS, oc.filePath = nc.filePath →
      oc.crc32 = nc.crc32 →
      ∀ d ∈ CompareChecksums oldCS newCS, d.filePath ≠ oc.filePath) ∧
    (∀ oc ∈ oldCS, ∀ nc ∈ newCS, oc.filePath = nc.filePath →
      oc.crc32 ≠ nc.crc32 →
      ({ filePath := oc.filePath, oldCRC32 := oc.crc32, oldSize := oc.sizeBytes,
         newCRC32 := nc.crc32, newSize := nc.sizeBytes,
         changeType := if oc.sizeBytes ≠ nc.sizeBytes then "size-changed"
           else "modified" } : Difference) ∈ CompareChecksums oldCS newCS) ∧
    List.Sorted pathLe (CompareChecksums oldCS newCS) := by
  refine ⟨?_, ?_, ?_, ?_, ?_⟩
  · intro oc hoc hnotin
    have hl : lookupChecksum newCS oc.filePath = none :=
      (lookupChecksum_eq_none _ _).mpr hnotin
    have hf : diffOld newCS oc = some
        { filePath := oc.filePath, oldCRC32 := oc.crc32, oldSize := oc.sizeBytes,
          newCRC32 := "", newSize := 0, changeType := "deleted" } := by
      unfold diffOld
      rw [hl]
    rw [CompareChecksums, List.mem_insertionSort]
    exact List.mem_append_left _ (List.mem_filterMap.mpr ⟨oc, hoc, hf⟩)
  · intro nc hnc hnotin
    have hl : lookupChecksum oldCS nc.filePath = none :=
      (lookupChecksum_eq_none _ _).mpr hnotin
    have hf : diffNew oldCS nc = some
        { filePath := nc.filePath, oldCRC32 := "", oldSize := 0,
          newCRC32 := nc.crc32, newSize := nc.sizeBytes,
          changeType := "added" } := by
      unfold diffNew
      rw [hl]
      rfl
    rw [CompareChecksums, List.mem_insertionSort]
    exact List.mem_append_right _ (List.mem_filterMap.mpr ⟨nc, hnc, hf⟩)
  · intro oc hoc nc hnc hpath hcrc d hd hdp
    rw [CompareChecksums, List.mem_insertionSort, List.mem_append] at hd
    rcases hd with hd | hd
    · rcases List.mem_filterMap.mp hd with ⟨oc2, hoc2, hfd⟩
      have hp2 : d.filePath = oc2.filePath := diffOld_filePath _ _ _ hfd
      have hoc2eq : oc2 = oc :=
        List.inj_on_of_nodup_map hOld hoc2 hoc (by rw [← hp2, hdp])
      subst hoc2eq
      have hlook : lookupChecksum newCS oc2.filePath = some nc := by
        rw [hpath]
        exact lookupChecksum_mem newCS hNew nc hnc
      unfold diffOld at hfd
      rw [hlook] at hfd
      simp [hcrc] at hfd
    · rcases List.mem_filterMap.mp hd with ⟨nc2, hnc2, hfd⟩
      rcases diffNew_props _ _ _ hfd with ⟨hp2, hlnone⟩
      have hpn : nc2.filePath = oc.filePath := by rw [← hp2, hdp]
      have hmem : oc.filePath ∈ oldCS.map Checksum.filePath :=
        List.mem_map.mpr ⟨oc, hoc, rfl⟩
      rw [hpn] at hlnone
      exact absurd hmem ((lookupChecksum_eq_none _ _).mp hlnone)
  · intro oc hoc nc hnc hpath hcrc
    have hlook : lookupChecksum newCS oc.filePath = some nc := by
      rw [hpath]
      exact lookupChecksum_mem newCS hNew nc hnc
    have hf : diffOld newCS oc = some
        { filePath := oc.filePath, oldCRC32 := oc.crc32, oldSize := oc.sizeBytes,
          newCRC32 := nc.crc32, newSize := nc.sizeBytes,
          changeType := if oc.sizeBytes ≠ nc.sizeBytes then "size-changed"
            else "modified" } := by
      unfold diffOld
      rw [hlook]
      simp [hcrc]
    rw [CompareChecksums, List.mem_insertionSort]
    exact List.mem_append_left _ (List.mem_filterMap.mpr ⟨oc, hoc, hf⟩)
  · exact List.sorted_insertionSort pathLe _

/-- Witness for C1 on the spec's two-file example: renaming "b.bin" to
"c.bin" makes the old entry report as deleted. -/
theorem CompareChecksums_correct_witness :
    ({ filePath := "b.bin", oldCRC32 := "y", oldSize := 0, newCRC32 := "",
       newSize := 0, changeType := "deleted" } : Difference) ∈
      CompareChecksums
        [{ filePath := "a.txt", crc32 := "x", sizeBytes := 4 },
         { filePath := "b.bin", crc32 := "y", sizeBytes := 0 }]
        [{ filePath := "a.txt", crc32 := "x", sizeBytes := 4 },
         { filePath := "c.bin", crc32 := "y", sizeBytes := 0 }] :=
  (CompareChecksums_correct
    [{ filePath := "a.txt", crc32 := "x", sizeBytes := 4 },
     { filePath := "b.bin", crc32 := "y", sizeBytes := 0 }]
    [{ filePath := "a.txt", crc32 := "x", sizeBytes := 4 },
     { filePath := "c.bin", crc32 := "y", sizeBytes := 0 }]
    (by decide) (by decide)).1
    { filePath := "b.bin", crc32 := "y", sizeBytes := 0 } (by decide) (by decide)

/-- Unmarshalling inverts marshalling for one fingerprint whose values fit
their wire types. -/
theorem decodeFileChecksum_encode (c : FileChecksum) (h : c.crc32 < 2 ^ 32)
    (hlo : int64Min ≤ c.sizeBytes) (hhi : c.sizeBytes ≤ int64Max) :
    decodeFileChecksum (encodeFileChecksum c) = some c := by
  have h1 : (0 : Int) ≤ (c.crc32 : Int) := Int.natCast_nonneg _
  have h2 : (c.crc32 : Int) ≤ 2 ^ 32 - 1 := by omega
  have h3 : c.crc32 ≤ 4294967295 := by omega
  simp [decodeFileChecksum, encodeFileChecksum, jsonField, decodeString,
        decodeUInt32, decodeInt64, h1, h2, h3, hlo, hhi]

/-- Unmarshalling inverts marshalling for a whole fingerprint array. -/
theorem mapM_decodeFileChecksum_encode (cs : List FileChecksum)
    (h : ∀ c ∈ cs, c.crc32 < 2 ^ 32 ∧ int64Min ≤ c.sizeBytes ∧
      c.sizeBytes ≤ int64Max) :
    decodeChecksumList (cs.map encodeFileChecksum) = some cs := by
  induction cs with
  | nil => rfl
  | cons a t ih =>
    rcases h a (List.mem_cons_self a t) with ⟨h1, h2, h3⟩
    have ht := ih (fun c hc => h c (List.mem_cons_of_mem a hc))
    simp [decodeChecksumList, decodeFileChecksum_encode a h1 h2 h3, ht]

/-- Unmarshalling inverts `ExportJSON` when every value fits its wire type. -/
theorem decodeChecksumExport_ExportJSON (runID stepNumber : Int)
    (cs : List FileChecksum) (now : String)
    (hrun : int64Min ≤ runID ∧ runID ≤ int64Max)
    (hstep : int64Min ≤ stepNumber ∧ stepNumber ≤ int64Max)
    (hcs : ∀ c ∈ cs, c.crc32 < 2 ^ 32 ∧ int64Min ≤ c.sizeBytes ∧
      c.sizeBytes ≤ int64Max) :
    decodeChecksumExport (ExportJSON runID stepNumber cs now) =
      some { runID := runID, stepNumber := stepNumber, checksums := cs,
             computedAt := now } := by
  simp [decodeChecksumExport, ExportJSON, jsonField, decodeInt64, decodeString,
        mapM_decodeFileChecksum_encode cs hcs, hrun.1, hrun.2, hstep.1, hstep.2]

/-- Diffing a snapshot with unique paths against itself yields no
differences. -/
theorem CompareChecksums_self (l : List Checksum)
    (h : (l.map Checksum.filePath).Nodup) : CompareChecksums l l = [] := by
  have h1 : l.filterMap (diffOld l) = [] := by
    rw [List.filterMap_eq_nil_iff]
    intro c hc
    unfold diffOld
    rw [lookupChecksum_mem l h c hc]
    simp
  have h2 : l.filterMap (diffNew l) = [] := by
    rw [List.filterMap_eq_nil_iff]
    intro c hc
    unfold diffNew
    rw [lookupChecksum_mem l h c hc]
    simp
  rw [CompareChecksums, h1, h2]
  rfl

/-- C6: exporting a fingerprint set to the interchange JSON and importing it
into a fresh store yields exactly the rows that storing the original set
writes — same paths, same rendered checksums, same sizes, in the same
order — and the diff of that snapshot against the one stored from the
original set is empty. -/
theorem ExportJSON_ImportJSON_roundtrip (runID stepNumber : Int)
    (cs : List FileChecksum) (now : String)
    (hrun : int64Min ≤ runID ∧ runID ≤ int64Max)
    (hstep : int64Min ≤ stepNumber ∧ stepNumber ≤ int64Max)
    (hcs : ∀ c ∈ cs, c.crc32 < 2 ^ 32 ∧ int64Min ≤ c.sizeBytes ∧
      c.sizeBytes ≤ int64Max)
    (hpaths : (cs.map FileChecksum.path).Nodup) :
    ImportJSON (ExportJSON runID stepNumber cs now) =
      some (StoreChecksums runID stepNumber cs now) ∧
    CompareChecksums
      ((StoreChecksums runID stepNumber cs now).map DBChecksum.toChecksum)
      ((StoreChecksums runID stepNumber cs now).map DBChecksum.toChecksum) =
      [] := by
  constructor
  · rw [ImportJSON, decodeChecksumExport_ExportJSON runID stepNumber cs now
      hrun hstep hcs]
    rfl
  · apply CompareChecksums_self
    simpa [DBChecksum.toChecksum, StoreChecksums, List.map_map,
      Function.comp] using hpaths

/-- Witness for C6 at a concrete two-file fingerprint set. -/
theorem ExportJSON_ImportJSON_roundtrip_witness :
    ImportJSON (ExportJSON 7 2
        [{ path := "a.txt", crc32 := 3984772369, sizeBytes := 4 },
         { path := "b.bin", crc32 := 0, sizeBytes := 0 }]
        "2025-01-01T00:00:00Z") =
      some (StoreChecksums 7 2
        [{ path := "a.txt", crc32 := 3984772369, sizeBytes := 4 },
         { path := "b.bin", crc32 := 0, sizeBytes := 0 }]
        "2025-01-01T00:00:00Z") :=
  (ExportJSON_ImportJSON_roundtrip 7 2
    [{ path := "a.txt", crc32 := 3984772369, sizeBytes := 4 },
     { path := "b.bin", crc32 := 0, sizeBytes := 0 }]
    "2025-01-01T00:00:00Z" (by decide) (by decide) (by decide) (by decide)).1

/-- The division step is linear over xor (the polynomial contribution
cancels when both arguments are odd). -/
theorem crcStep_xor (a b : Nat) : crcStep (a ^^^ b) = crcStep a ^^^ crcStep b := by
  unfold crcStep
  rcases Nat.mod_two_eq_zero_or_one a with ha | ha <;>
    rcases Nat.mod_two_eq_zero_or_one b with hb | hb
  · have hab : ¬ (a ^^^ b) % 2 = 1 := by
      rw [Nat.xor_mod_two_eq_one]
      simp [ha, hb]
    rw [if_neg hab, if_neg (by omega), if_neg (by omega), Nat.xor_div_two]
  · have hab : (a ^^^ b) % 2 = 1 := by
      rw [Nat.xor_mod_two_eq_one]
      simp [ha, hb]
    rw [if_pos hab, if_neg (by omega), if_pos hb, Nat.xor_div_two, Nat.xor_assoc]
  · have hab : (a ^^^ b) % 2 = 1 := by
      rw [Nat.xor_mod_two_eq_one]
      simp [ha, hb]
    rw [if_pos hab, if_pos ha, if_neg (by omega), Nat.xor_div_two]
    calc (a / 2 ^^^ b / 2) ^^^ IEEEPoly
        = a / 2 ^^^ (b / 2 ^^^ IEEEPoly) := Nat.xor_assoc _ _ _
      _ = a / 2 ^^^ (IEEEPoly ^^^ b / 2) := by rw [Nat.xor_comm (b / 2) IEEEPoly]
      _ = (a / 2 ^^^ IEEEPoly) ^^^ b / 2 := (Nat.xor_assoc _ _ _).symm
  · have hab : ¬ (a ^^^ b) % 2 = 1 := by
      rw [Nat.xor_mod_two_eq_one]
      simp [ha, hb]
    rw [if_neg hab, if_pos ha, if_pos hb, Nat.xor_div_two]
    calc a / 2 ^^^ b / 2
        = a / 2 ^^^ (b / 2 ^^^ 0) := by rw [Nat.xor_zero]
      _ = a / 2 ^^^ (b / 2 ^^^ (IEEEPoly ^^^ IEEEPoly)) := by rw [Nat.xor_self]
      _ = a / 2 ^^^ ((b / 2 ^^^ IEEEPoly) ^^^ IEEEPoly) := by
          rw [Nat.xor_assoc (b / 2) IEEEPoly IEEEPoly]
      _ = a / 2 ^^^ (IEEEPoly ^^^ (b / 2 ^^^ IEEEPoly)) := by
          rw [Nat.xor_comm (b / 2 ^^^ IEEEPoly) IEEEPoly]
      _ = (a / 2 ^^^ IEEEPoly) ^^^ (b / 2 ^^^ IEEEPoly) := (Nat.xor_assoc _ _ _).symm

/-- Iterated division steps are linear over xor. -/
theorem crcSteps_xor (n : Nat) : ∀ a b : Nat,
    crcSteps n (a ^^^ b) = crcSteps n a ^^^ crcSteps n b := by
  induction n with
  | zero => intro a b; rfl
  | succ m ih =>
    intro a b
    show crcSteps m (crcStep (a ^^^ b)) = crcSteps m (crcStep a) ^^^ crcSteps m (crcStep b)
    rw [crcStep_xor, ih]

/-- A doubled value is simply shifted back down by one step. -/
theorem crcStep_double (k : Nat) : crcStep (2 * k) = k := by
  unfold crcStep
  rw [if_neg (by omega)]
  omega

/-- `n` division steps undo a shift by `n` bits. -/
theorem crcSteps_shift (n : Nat) : ∀ k : Nat, crcSteps n (2 ^ n * k) = k := by
  induction n with
  | zero => intro k; show 2 ^ 0 * k = k; omega
  | succ m ih =>
    intro k
    show crcSteps m (crcStep (2 ^ (m + 1) * k)) = k
    have h : 2 ^ (m + 1) * k = 2 * (2 ^ m * k) := by ring
    rw [h, crcStep_double]
    exact ih k

/-- Splitting off the low `n` bits of a number as an xor. -/
theorem mod_xor_div_mul (n x : Nat) : x % 2 ^ n ^^^ 2 ^ n * (x / 2 ^ n) = x := by
  apply Nat.eq_of_testBit_eq
  intro i
  rw [Nat.testBit_xor, Nat.testBit_mod_two_pow, Nat.testBit_mul_pow_two]
  by_cases h : i < n
  · have h2 : ¬ i ≥ n := by omega
    simp [h, h2]
  · have h2 : i ≥ n := by omega
    have hdiv : x / 2 ^ n = x >>> n := (Nat.shiftRight_eq_div_pow x n).symm
    have h3 : n + (i - n) = i := by omega
    simp [h, h2, hdiv, Nat.testBit_shiftRight, h3]

/-- The low bit and the doubled upper bits recombine by xor. -/
theorem mod_two_xor_double_div_two (b : Nat) : b % 2 ^^^ 2 * (b / 2) = b := by
  have h := mod_xor_div_mul 1 b
  simpa using h

/-- Dividing an xor by a power of two distributes. -/
theorem xor_div_two_pow (n : Nat) : ∀ a b : Nat,
    (a ^^^ b) / 2 ^ n = a / 2 ^ n ^^^ b / 2 ^ n := by
  induction n with
  | zero => intro a b; simp
  | succ m ih =>
    intro a b
    have hsplit : ∀ x : Nat, x / 2 ^ (m + 1) = x / 2 ^ m / 2 := by
      intro x
      rw [Nat.div_div_eq_div_mul, pow_succ]
    rw [hsplit, hsplit, hsplit, ih, Nat.xor_div_two]

/-- Feeding the `n` low bits of `b` into the register equals `n` division
steps on the register xored with those bits. -/
theorem crcFeedBits_eq (n : Nat) : ∀ c b : Nat, b < 2 ^ n →
    crcFeedBits n c b = crcSteps n (c ^^^ b) := by
  induction n with
  | zero =>
    intro c b hb
    have hb0 : b = 0 := by omega
    subst hb0
    show c = crcSteps 0 (c ^^^ 0)
    rw [Nat.xor_zero]
    rfl
  | succ m ih =>
    intro c b hb
    show crcFeedBits m (crcStep (c ^^^ b % 2)) (b / 2) = crcSteps m (crcStep (c ^^^ b))
    have hb2 : b / 2 < 2 ^ m := by
      rw [Nat.div_lt_iff_lt_mul (by norm_num : (0 : Nat) < 2)]
      rw [pow_succ] at hb
      exact hb
    rw [ih (crcStep (c ^^^ b % 2)) (b / 2) hb2]
    congr 1
    calc crcStep (c ^^^ b % 2) ^^^ b / 2
        = crcStep (c ^^^ b % 2) ^^^ crcStep (2 * (b / 2)) := by rw [crcStep_double]
      _ = crcStep ((c ^^^ b % 2) ^^^ 2 * (b / 2)) := (crcStep_xor _ _).symm
      _ = crcStep (c ^^^ (b % 2 ^^^ 2 * (b / 2))) := by rw [Nat.xor_assoc]
      _ = crcStep (c ^^^ b) := by rw [mod_two_xor_double_div_two]

/-- The table-driven byte update of Go's `hash/crc32` equals eight
bit-at-a-time division steps. -/
theorem crcUpdateByte_eq (c b : Nat) (hb : b < 256) :
    crcUpdateByte c b = crcFeedBits 8 c b := by
  have h256 : (256 : Nat) = 2 ^ 8 := by norm_num
  have hb8 : b < 2 ^ 8 := by rw [← h256]; exact hb
  rw [crcFeedBits_eq 8 c b hb8]
  unfold crcUpdateByte crcTable
  rw [h256]
  have hdiv : (c ^^^ b) / 2 ^ 8 = c / 2 ^ 8 := by
    rw [xor_div_two_pow]
    rw [Nat.div_eq_of_lt hb8]
    simp
  calc crcSteps 8 ((c ^^^ b) % 2 ^ 8) ^^^ c / 2 ^ 8
      = crcSteps 8 ((c ^^^ b) % 2 ^ 8) ^^^
        crcSteps 8 (2 ^ 8 * ((c ^^^ b) / 2 ^ 8)) := by
        rw [crcSteps_shift, hdiv]
    _ = crcSteps 8 ((c ^^^ b) % 2 ^ 8 ^^^ 2 ^ 8 * ((c ^^^ b) / 2 ^ 8)) :=
        (crcSteps_xor 8 _ _).symm
    _ = crcSteps 8 (c ^^^ b) := by rw [mod_xor_div_mul]

/-- Folding the table-driven update over a byte list equals folding the
bitwise update. -/
theorem foldl_crcUpdateByte_eq (data : List Nat) : ∀ c : Nat,
    (∀ b ∈ data, b < 256) →
    data.foldl crcUpdateByte c = data.foldl (fun c b => crcFeedBits 8 c b) c := by
  induction data with
  | nil => intro c _; rfl
  | cons a t ih =>
    intro c h
    simp only [List.foldl_cons]
    rw [crcUpdateByte_eq c a (h a (List.mem_cons_self a t))]
    exact ih _ (fun b hb => h b (List.mem_cons_of_mem a hb))

/-- C3 (amended): the engine's checksum of a byte sequence is the reflected
CRC-32 computed bit by bit with polynomial 0xEDB88320 — the bit-reversal of
the cksum generator polynomial 0x04C11DB7, so the two share their generator
polynomial — with initial value and final complement 0xFFFFFFFF.  (It is not
the checksum the cksum utility outputs; see the counterexample.) -/
theorem crc32IEEE_characterization (data : List Nat)
    (h : ∀ b ∈ data, b < 256) :
    crc32IEEE data = crcBitwise data ∧ bitrev 32 cksumPoly = IEEEPoly := by
  constructor
  · unfold crc32IEEE crcBitwise
    rw [foldl_crcUpdateByte_eq data 0xFFFFFFFF h]
  · decide

/-- Witness for the amended C3 on the bytes of "abcd". -/
theorem crc32IEEE_characterization_witness :
    crc32IEEE [97, 98, 99, 100] = crcBitwise [97, 98, 99, 100] :=
  (crc32IEEE_characterization [97, 98, 99, 100] (by decide)).1

/-- C3 counterexample: on the bytes of "abcd" the engine's checksum differs
from the checksum the cksum utility computes for the same sequence, so the
engine's checksum is not the cksum CRC of the content (the two algorithms
share only the generator polynomial). -/
theorem crc32IEEE_ne_cksumCRC :
    crc32IEEE [97, 98, 99, 100] ≠ cksumCRC [97, 98, 99, 100] := by
  decide

end GitLfsTest
